import Mathlib

/-!
Shallow embedding of the `routr` repository (package `route`): the string
helpers, the service enumerations with their loose resolution, the API
clients with URL building and scoped derivation, the client factory, the
batch pipeline grouping of `compute`, and the per-destination response
interpretation of `compute_distances`.  Python strings are Lean `String`s,
Python dicts are association lists with unique keys, Python exceptions are
`Except`, mutation is explicit state passing.
-/

namespace Routr

/-- Python substring containment `pat in s`, on character lists. -/
def listContainsSub (pat : List Char) : List Char → Bool
  | [] => pat.isEmpty
  | c :: rest => pat.isPrefixOf (c :: rest) || listContainsSub pat rest

/-- Python `pat in s` for strings. -/
def strContainsSub (s pat : String) : Bool :=
  listContainsSub pat.toList s.toList

/-- Python `s.startswith(pat)`. -/
def strStarts (s pat : String) : Bool :=
  pat.toList.isPrefixOf s.toList

/-- Python `s.endswith("/")`. -/
def endsWithSlash (s : String) : Bool :=
  s.toList.getLast? == some '/'

/-- Python `s[:-1]`. -/
def strDropLast (s : String) : String :=
  String.mk s.toList.dropLast

/-- Python `s.strip()`: drop whitespace from both ends. -/
def pyStrip (s : String) : String :=
  String.mk (((s.toList.dropWhile Char.isWhitespace).reverse.dropWhile
    Char.isWhitespace).reverse)

/-- Python `sep.join(xs)`. -/
def pyJoin (sep : String) : List String → String
  | [] => ""
  | [x] => x
  | x :: y :: rest => x ++ sep ++ pyJoin sep (y :: rest)

/-- Lookup in a Python dict modelled as an association list whose keys are
unique; returns the value at the first matching key. -/
def assocGet {α : Type} (l : List (String × α)) (k : String) : Option α :=
  match l.find? (fun kv => kv.1 == k) with
  | some kv => some kv.2
  | none => none

/-- The errors the embedded code can raise.  The source raises Python
`ValueError` for bad configuration and unresolvable enum inputs and
`route.exceptions.ValidationError` for payload problems; the spec names
these `ConfigurationError`, `InvalidEnumValue` and `ValidationError`, and
the constructors below follow that taxonomy while carrying exactly the
data the source attaches. -/
inductive Err
  | validation (msg : String)
  | config (msg : String)
  | invalidEnum (ename : String) (offending : String)
  | typeError (msg : String)
  deriving DecidableEq

/-- `OSRMProfile` from `route/common.py` (members in definition order). -/
inductive OSRMProfile
  | BIKE
  | CAR
  | FOOT
  deriving DecidableEq

/-- The symbolic name of an `OSRMProfile` member (Python `member.name`). -/
def OSRMProfile.pyName : OSRMProfile → String
  | .BIKE => "BIKE"
  | .CAR => "CAR"
  | .FOOT => "FOOT"

/-- The underlying value of an `OSRMProfile` member (Python `member.value`). -/
def OSRMProfile.value : OSRMProfile → String
  | .BIKE => "bike"
  | .CAR => "car"
  | .FOOT => "foot"

/-- `OSRMService` from `route/common.py` (members in definition order). -/
inductive OSRMService
  | ROUTE
  | MATCH
  | NEAREST
  | TABLE
  | TRIP
  | TILE
  deriving DecidableEq

/-- The symbolic name of an `OSRMService` member (Python `member.name`). -/
def OSRMService.pyName : OSRMService → String
  | .ROUTE => "ROUTE"
  | .MATCH => "MATCH"
  | .NEAREST => "NEAREST"
  | .TABLE => "TABLE"
  | .TRIP => "TRIP"
  | .TILE => "TILE"

/-- The underlying value of an `OSRMService` member (Python `member.value`). -/
def OSRMService.value : OSRMService → String
  | .ROUTE => "route"
  | .MATCH => "match"
  | .NEAREST => "nearest"
  | .TABLE => "table"
  | .TRIP => "trip"
  | .TILE => "tile"

/-- The data `EnumMixin.resolve` consults about an enumeration class:
its name, its members in definition order, and their name/value maps. -/
structure EnumSpec (α : Type) where
  ename : String
  members : List α
  name : α → String
  value : α → String

/-- An input to `EnumMixin.resolve`: either an instance of the class or a
string (a non-member non-string input behaves like an unmatched string,
since Python `in` over a list of strings compares it unequal to all). -/
inductive EnumInput (α : Type)
  | mem (m : α)
  | str (s : String)

/-- `EnumMixin.resolve` from `route/common.py`: identity check first, then
membership of the name list, then membership of the value list, else a
`ValueError` carrying the class name and the offending value. -/
def resolve {α : Type} (E : EnumSpec α) : EnumInput α → Except Err α
  | .mem m => .ok m
  | .str s =>
    match E.members.find? (fun m => E.name m == s) with
    | some m => .ok m
    | none =>
      match E.members.find? (fun m => E.value m == s) with
      | some m => .ok m
      | none => .error (.invalidEnum E.ename s)

/-- The `EnumSpec` for `OSRMService`. -/
def serviceSpec : EnumSpec OSRMService :=
  ⟨"OSRMService", [.ROUTE, .MATCH, .NEAREST, .TABLE, .TRIP, .TILE],
    OSRMService.pyName, OSRMService.value⟩

/-- The `EnumSpec` for `OSRMProfile`. -/
def profileSpec : EnumSpec OSRMProfile :=
  ⟨"OSRMProfile", [.BIKE, .CAR, .FOOT], OSRMProfile.pyName, OSRMProfile.value⟩

/-- A dynamically typed value that can sit in a client's `apikey` slot;
`for_` (see below) stores an `OSRMService` member there. -/
inductive PyVal
  | str (s : String)
  | svc (m : OSRMService)
  | prof (m : OSRMProfile)
  deriving DecidableEq

/-- `APIClient` state after `__init__`: the (possibly slash-stripped)
base url and the api key. -/
structure APIClient where
  urlbase : String
  apikey : Option PyVal
  deriving DecidableEq

/-- `APIClient.__init__`: reject a url without `"://"` or starting with
`"://"`, then drop one trailing slash when the url is non-empty. -/
def mkAPIClient (urlbase : String) (apikey : Option PyVal) :
    Except Err APIClient :=
  if !(strContainsSub urlbase "://") || strStarts urlbase "://" then
    .error (.config "urlbase must specify a scheme")
  else
    let ub := if urlbase ≠ "" && endsWithSlash urlbase then
        strDropLast urlbase
      else urlbase
    .ok ⟨ub, apikey⟩

/-- `OSRMClient` state after `__init__`. -/
structure OSRMClient where
  urlbase : String
  apikey : Option PyVal
  service : OSRMService
  profile : OSRMProfile
  version : String
  deriving DecidableEq

/-- An argument that may be a member, a string, or Python `None`
(used for the `service` parameter, whose default is `None`). -/
inductive PyArg (α : Type)
  | none
  | str (s : String)
  | mem (m : α)

/-- Python `service or "route"` followed by coercion into a resolve input:
`None` and the empty string are falsy and replaced by `"route"`. -/
def svcOrRoute : PyArg OSRMService → EnumInput OSRMService
  | .none => .str "route"
  | .str s => if s = "" then .str "route" else .str s
  | .mem m => .mem m

/-- Python `version or "v1"`: `None` and `""` are falsy. -/
def verOr : Option String → String
  | Option.none => "v1"
  | some s => if s = "" then "v1" else s

/-- `OSRMClient.__init__`: validate the base url via `APIClient.__init__`,
resolve `service or "route"` and the profile, default the version.  The
Python defaults are `apikey=None`, `service=None`, `version="v1"`,
`profile=OSRMProfile.CAR`; callers pass them explicitly here. -/
def mkOSRMClient (urlbase : String) (apikey : Option PyVal)
    (service : PyArg OSRMService) (version : Option String)
    (profile : EnumInput OSRMProfile) : Except Err OSRMClient := do
  let base ← mkAPIClient urlbase apikey
  let svc ← resolve serviceSpec (svcOrRoute service)
  let prof ← resolve profileSpec profile
  .ok ⟨base.urlbase, base.apikey, svc, prof, verOr version⟩

/-- `OSRMClient.for_`: the source runs
`self.__class__(self.urlbase, service, profile=profile)`, so the
`service` argument is passed positionally into the `apikey` slot and the
`service` parameter keeps its `None` default. -/
def OSRMClient.for_ (c : OSRMClient) (service : OSRMService)
    (profile : OSRMProfile) : Except Err OSRMClient :=
  mkOSRMClient c.urlbase (some (PyVal.svc service)) PyArg.none (some "v1")
    (EnumInput.mem profile)

/-- A payload value: a string, a list of strings, or a number. -/
inductive PayVal
  | str (s : String)
  | strList (xs : List String)
  | num (n : Int)
  deriving DecidableEq

/-- The parts furl assembles into the final url: base, path, and the
query parameters. -/
structure UrlParts where
  urlbase : String
  path : String
  args : List (String × PayVal)
  deriving DecidableEq

/-- Python `list(v)` as used on the `coordinates` payload entry when it is
not already a list or tuple: iterating a string yields its characters as
one-character strings; a number is not iterable. -/
def pyList : PayVal → Except Err (List String)
  | .strList xs => .ok xs
  | .str s => .ok (s.toList.map (fun ch => String.mk [ch]))
  | .num _ => .error (.typeError "int object is not iterable")

/-- `OSRMClient._build_url`: reject an empty payload, require the
`coordinates` key (the raising line lacks an f-string prefix, so the
message is the literal template), ignore the caller-supplied path and
derive `/{service}/{version}/{profile}/{joined-coordinates}.json`, and
pass the remaining payload entries to furl as query arguments. -/
def OSRMClient.build_url (c : OSRMClient) (urlpath : Option String)
    (params : List (String × PayVal)) : Except Err UrlParts :=
  if params.isEmpty then .error (.validation "payload is required")
  else
    match assocGet params "coordinates" with
    | Option.none => .error (.validation "\x27{entry}\x27 missing from payload")
    | some coordv => do
      let _ := urlpath
      let coordinates ← pyList coordv
      let coords := pyJoin ";"
        ((coordinates.filter (fun s => !s.isEmpty)).map pyStrip)
      let upath := "/" ++ c.service.value ++ "/" ++ c.version ++ "/"
        ++ c.profile.value ++ "/" ++ coords ++ ".json"
      .ok ⟨c.urlbase, upath, params.filter (fun kv => kv.1 != "coordinates")⟩

/-- The configuration fields `get_client` consults: attribute access on the
`AttrDict` yields `None` for a missing key, hence the `Option`s. -/
structure Config where
  engine : Option String
  urlbase : Option String
  apikey : Option String
  deriving DecidableEq

/-- A constructed client: the OSRM implementation, or the generic
`APIClient` fallback for an unknown engine. -/
inductive Client
  | osrm (c : OSRMClient)
  | generic (c : APIClient)
  deriving DecidableEq

/-- The thread-local execution context: the loaded configuration and the
cached client, if any. -/
structure Ctx where
  config : Config
  client : Option Client
  deriving DecidableEq

/-- The construction `get_client` performs on its first call:
`config.get("engine", "OSRM")` selects `OSRMClient` exactly for `"OSRM"`
and the generic `APIClient` otherwise, built from `config.urlbase` and
`config.apikey`; a missing `urlbase` is Python `None` and makes the base
constructor's `"://" not in urlbase` test raise a `TypeError`. -/
def mkClientFromConfig (cfg : Config) : Except Err Client :=
  let engine := cfg.engine.getD "OSRM"
  match cfg.urlbase with
  | Option.none => .error (.typeError "argument of type NoneType is not iterable")
  | some ub =>
    if engine = "OSRM" then
      (mkOSRMClient ub (cfg.apikey.map PyVal.str) PyArg.none (some "v1")
        (EnumInput.mem OSRMProfile.CAR)).map Client.osrm
    else
      (mkAPIClient ub (cfg.apikey.map PyVal.str)).map Client.generic

/-- `get_client`: return the cached client when the thread-local has one,
otherwise construct from configuration, cache, and return. -/
def get_client (ctx : Ctx) : Except Err (Client × Ctx) :=
  match ctx.client with
  | some c => .ok (c, ctx)
  | Option.none =>
    match mkClientFromConfig ctx.config with
    | .error e => .error e
    | .ok c => .ok (c, { ctx with client := some c })

/-- An input row of the batch pipeline, as read from the source csv. -/
structure Row where
  origin_long : String
  origin_lat : String
  dest_long : String
  dest_lat : String
  deriving DecidableEq

/-- An origin key: `(row["origin_long"], row["origin_lat"])`. -/
abbrev Origin := String × String

/-- The destination portion of a row: `(row["dest_long"], row["dest_lat"])`. -/
abbrev Dest := String × String

/-- The origin key computed for a row. -/
def Row.originKey (r : Row) : Origin := (r.origin_long, r.origin_lat)

/-- The destination record extracted from a row. -/
def Row.destRec (r : Row) : Dest := (r.dest_long, r.dest_lat)

/-- One step of the grouping loop:
`coordset.setdefault(origin_coord, []).append(dest_coord)` on an ordered
dict — append to the existing key's list, or add a new key at the end. -/
def addRow (g : List (Origin × List Dest)) (o : Origin) (d : Dest) :
    List (Origin × List Dest) :=
  match g with
  | [] => [(o, [d])]
  | (k, ds) :: rest =>
    if k = o then (k, ds ++ [d]) :: rest else (k, ds) :: addRow rest o d

/-- The grouping loop of `compute`: fold the input rows in order into the
ordered dict. -/
def groupRows (rows : List Row) : List (Origin × List Dest) :=
  rows.foldl (fun g r => addRow g r.originKey r.destRec) []

/-- The output assembly of `compute`: one row per destination, in group
order then destination order (`compute_distances` returns each group's
origin and destination list unchanged in structure and order). -/
def outputRows (rows : List Row) : List (Origin × Dest) :=
  (groupRows rows).flatMap (fun g => g.2.map (fun d => (g.1, d)))

/-- The distinct origin keys of the input rows in first-seen order (the
order contract of the spec, used to state what `groupRows` computes). -/
def firstSeenKeys : List Row → List Origin
  | [] => []
  | r :: rest =>
    r.originKey :: (firstSeenKeys rest).filter (fun k => k ≠ r.originKey)

/-- The grouping as the spec describes it: each first-seen origin key, in
order, paired with the destination records of its rows in input order. -/
def specGroup (rows : List Row) : List (Origin × List Dest) :=
  (firstSeenKeys rows).map
    (fun k => (k, (rows.filter (fun r => r.originKey = k)).map Row.destRec))

/-- A decoded JSON value. -/
inductive JVal
  | null
  | bool (b : Bool)
  | num (n : Int)
  | str (s : String)
  | arr (xs : List JVal)
  | obj (fields : List (String × JVal))

/-- Python truthiness of a decoded JSON value. -/
def truthy : JVal → Bool
  | .null => false
  | .bool b => b
  | .num n => n != 0
  | .str s => !s.isEmpty
  | .arr xs => !xs.isEmpty
  | .obj fs => !fs.isEmpty

/-- Truthiness of an `AttrDict` attribute access, where a missing key is
`None` and hence falsy. -/
def optTruthy : Option JVal → Bool
  | Option.none => false
  | some v => truthy v

/-- Python `data.code == "Ok"`: true exactly for the string `"Ok"`
(comparison with a missing key or a non-string value is `False`). -/
def isOkStr : Option JVal → Bool
  | some (.str s) => s == "Ok"
  | _ => false

/-- Python `v[0]`: the head of a list, the first character of a non-empty
string (as a one-character string), and a raised error for everything
else (`KeyError` for a dict with no key `0`, `TypeError` otherwise,
`IndexError` for an empty list or string). -/
def pyIndex0 : JVal → Except String JVal
  | .arr [] => .error "IndexError"
  | .arr (x :: _) => .ok x
  | .str s =>
    match s.toList with
    | [] => .error "IndexError"
    | c :: _ => .ok (.str (String.mk [c]))
  | .obj _ => .error "KeyError"
  | .null => .error "TypeError"
  | .bool _ => .error "TypeError"
  | .num _ => .error "TypeError"

/-- The body of the `try` block, `route["distance"] / 100.0`, as an
`Option`: `none` means some exception was raised inside the `try`
(non-subscriptable route, missing key, or non-numeric distance) and the
`except` arm runs.  Python booleans are numeric: `True / 100.0 == 0.01`. -/
def tryDistance : JVal → Option ℚ
  | .obj fs =>
    match assocGet fs "distance" with
    | some (.num n) => some ((n : ℚ) / 100)
    | some (.bool b) => some ((if b then 1 else 0 : ℚ) / 100)
    | _ => Option.none
  | _ => Option.none

/-- The computed distance for one destination: a number, or the sentinel
string `"?"` for a degraded result. -/
inductive DistOutcome
  | dist (q : ℚ)
  | unknown
  deriving DecidableEq

/-- The response-interpretation part of one iteration of
`compute_distances`' loop over a decoded top-level JSON object.  The
boolean records whether the iteration reached `time.sleep(10)`: the two
`continue` branches skip it, the `try`/`except` paths fall through to
it. -/
def processResponse (data : List (String × JVal)) :
    Except String (DistOutcome × Bool) :=
  let code := assocGet data "code"
  let routes := assocGet data "routes"
  if optTruthy code && isOkStr code && optTruthy routes then
    match pyIndex0 (routes.getD JVal.null) with
    | .error e => .error e
    | .ok route =>
      if truthy route then
        match tryDistance route with
        | some q => .ok (.dist q, true)
        | Option.none => .ok (.unknown, true)
      else .ok (.unknown, false)
  else .ok (.unknown, false)

/-- The distance set for one destination, forgetting the sleep flag. -/
def interpret (data : List (String × JVal)) : Except String DistOutcome :=
  (processResponse data).map Prod.fst

/-- C7 counterexample: the base url `"http://"` consists only of a scheme
marker with an empty host, yet construction succeeds; the stored url is
`"http:/"`, which ends with a slash and no longer contains the scheme
marker — refuting the claimed rejection and both claimed invariants of
the stored url. -/
theorem mkAPIClient_counterexample :
    mkAPIClient "http://" Option.none = .ok ⟨"http:/", Option.none⟩ ∧
    endsWithSlash "http:/" = true ∧
    strContainsSub "http:/" "://" = false :=
  ⟨rfl, rfl, rfl⟩

/-- C7 (amended): construction fails with a `ConfigurationError` exactly
when the base url lacks the substring `"://"` or begins with `"://"`;
on success the stored base url is the input with a single trailing slash
removed when one is present (so it can still end with a slash, and an
input like `"http://"` is accepted and stored as `"http:/"`), and the
api key is stored unchanged. -/
theorem mkAPIClient_amended (ub : String) (k : Option PyVal) :
    (strContainsSub ub "://" = false ∨ strStarts ub "://" = true →
      mkAPIClient ub k = .error (.config "urlbase must specify a scheme")) ∧
    (strContainsSub ub "://" = true → strStarts ub "://" = false →
      mkAPIClient ub k
        = .ok ⟨if endsWithSlash ub then strDropLast ub else ub, k⟩) := by
  constructor
  · intro h
    unfold mkAPIClient
    rcases h with h | h
    · simp [h]
    · simp [h]
  · intro h1 h2
    have hne : ub ≠ "" := by
      intro he
      rw [he] at h1
      exact absurd h1 (by decide)
    unfold mkAPIClient
    simp [h1, h2, hne]

/-- C7 witness: a well-formed base url with one trailing slash is
accepted and stored trimmed. -/
theorem mkAPIClient_amended_witness :
    mkAPIClient "https://r.example/" Option.none
      = .ok ⟨"https://r.example", Option.none⟩ :=
  (mkAPIClient_amended "https://r.example/" Option.none).2 rfl rfl

/-- C6: for both enumerations, `resolve` returns a member instance
unchanged, maps a member's symbolic name and a member's underlying value
to that member (case-sensitively, names before values), and fails with
an `InvalidEnumValue` carrying the enumeration's name and the offending
input when the input matches no name and no value. -/
theorem resolve_contract :
    (∀ m : OSRMService, resolve serviceSpec (.mem m) = .ok m) ∧
    (∀ m : OSRMService, resolve serviceSpec (.str m.pyName) = .ok m) ∧
    (∀ m : OSRMService, resolve serviceSpec (.str m.value) = .ok m) ∧
    (∀ s : String, (∀ m : OSRMService, m.pyName ≠ s ∧ m.value ≠ s) →
      resolve serviceSpec (.str s) = .error (.invalidEnum "OSRMService" s)) ∧
    (∀ m : OSRMProfile, resolve profileSpec (.mem m) = .ok m) ∧
    (∀ m : OSRMProfile, resolve profileSpec (.str m.pyName) = .ok m) ∧
    (∀ m : OSRMProfile, resolve profileSpec (.str m.value) = .ok m) ∧
    (∀ s : String, (∀ m : OSRMProfile, m.pyName ≠ s ∧ m.value ≠ s) →
      resolve profileSpec (.str s) = .error (.invalidEnum "OSRMProfile" s)) := by
  refine ⟨fun m => rfl, fun m => by cases m <;> rfl, fun m => by cases m <;> rfl,
    ?_, fun m => rfl, fun m => by cases m <;> rfl, fun m => by cases m <;> rfl, ?_⟩
  · intro s h
    have h1 : serviceSpec.members.find? (fun m => serviceSpec.name m == s)
        = Option.none := by
      rw [List.find?_eq_none]
      intro m _
      simp [serviceSpec, (h m).1]
    have h2 : serviceSpec.members.find? (fun m => serviceSpec.value m == s)
        = Option.none := by
      rw [List.find?_eq_none]
      intro m _
      simp [serviceSpec, (h m).2]
    unfold resolve
    simp only [h1, h2]
    rfl
  · intro s h
    have h1 : profileSpec.members.find? (fun m => profileSpec.name m == s)
        = Option.none := by
      rw [List.find?_eq_none]
      intro m _
      simp [profileSpec, (h m).1]
    have h2 : profileSpec.members.find? (fun m => profileSpec.value m == s)
        = Option.none := by
      rw [List.find?_eq_none]
      intro m _
      simp [profileSpec, (h m).2]
    unfold resolve
    simp only [h1, h2]
    rfl

/-- C6 witness: concrete resolutions by name, by value, by member, and a
concrete failure carrying the input and the enumeration name. -/
theorem resolve_contract_witness :
    resolve serviceSpec (.str "MATCH") = .ok .MATCH ∧
    resolve serviceSpec (.str "trip") = .ok .TRIP ∧
    resolve profileSpec (.mem .FOOT) = .ok .FOOT ∧
    resolve profileSpec (.str "dragon")
      = .error (.invalidEnum "OSRMProfile" "dragon") := by
  obtain ⟨a, b, c, d, e, f, g, h⟩ := resolve_contract
  exact ⟨b .MATCH, c .TRIP, e .FOOT,
    h "dragon" (fun m => by cases m <;> exact ⟨by decide, by decide⟩)⟩

/-- C10: whenever the base-url validation succeeds, constructing an
`OSRMClient` with an unsupplied or falsy `service`, an unsupplied or
falsy `version`, and the default profile yields service `ROUTE`,
profile `CAR` and version `"v1"`, over the validated base url and the
given api key. -/
theorem osrm_defaults (ub : String) (k : Option PyVal) (svc : PyArg OSRMService)
    (ver : Option String) (b : APIClient)
    (hb : mkAPIClient ub k = .ok b)
    (hsvc : svc = PyArg.none ∨ svc = PyArg.str "")
    (hver : ver = Option.none ∨ ver = some "" ∨ ver = some "v1") :
    mkOSRMClient ub k svc ver (EnumInput.mem OSRMProfile.CAR)
      = .ok ⟨b.urlbase, b.apikey, OSRMService.ROUTE, OSRMProfile.CAR, "v1"⟩ := by
  have hsvc2 : svcOrRoute svc = EnumInput.str "route" := by
    rcases hsvc with h | h
    · rw [h]; rfl
    · rw [h]; rfl
  have hver2 : verOr ver = "v1" := by
    rcases hver with h | h | h
    · rw [h]; rfl
    · rw [h]; rfl
    · rw [h]; rfl
  unfold mkOSRMClient
  rw [hb, hsvc2, hver2]
  rfl

/-- C10 witness: a concrete construction with the defaults. -/
theorem osrm_defaults_witness :
    mkOSRMClient "https://osrm.example" Option.none PyArg.none Option.none
        (EnumInput.mem OSRMProfile.CAR)
      = .ok ⟨"https://osrm.example", Option.none, .ROUTE, .CAR, "v1"⟩ :=
  osrm_defaults "https://osrm.example" Option.none PyArg.none Option.none
    ⟨"https://osrm.example", Option.none⟩ rfl (Or.inl rfl) (Or.inl rfl)

/-- C4 (code-bug evidence): deriving a scoped client with
`for_(MATCH, BIKE)` from a client holding api key `"SECRET"` yields a
client whose api key is the `MATCH` service member (the `service`
argument lands in the positional `apikey` slot) and whose service is the
default `ROUTE`, not `MATCH` — the claimed sharing of the api key and the
claimed operation configuration both fail. -/
theorem for_passes_service_as_apikey :
    OSRMClient.for_
        ⟨"http://osrm.example", some (PyVal.str "SECRET"), .TABLE, .FOOT, "v1"⟩
        .MATCH .BIKE
      = .ok ⟨"http://osrm.example", some (PyVal.svc .MATCH), .ROUTE, .BIKE, "v1"⟩ ∧
    some (PyVal.svc OSRMService.MATCH) ≠ some (PyVal.str "SECRET") ∧
    OSRMService.ROUTE ≠ OSRMService.MATCH :=
  ⟨rfl, by decide, by decide⟩

/-- C5 (code-bug evidence): an empty payload fails with the
`ValidationError` message `"payload is required"`, and a payload missing
`coordinates` fails with a `ValidationError` whose message is the raw
template (the raising line lacks the f-string prefix) and therefore does
not name `coordinates`. -/
theorem build_url_message_literal :
    OSRMClient.build_url
        ⟨"http://osrm.example", Option.none, .ROUTE, .CAR, "v1"⟩ Option.none []
      = .error (.validation "payload is required") ∧
    OSRMClient.build_url
        ⟨"http://osrm.example", Option.none, .ROUTE, .CAR, "v1"⟩ Option.none
        [("steps", PayVal.str "true")]
      = .error (.validation "\x27{entry}\x27 missing from payload") ∧
    strContainsSub "\x27{entry}\x27 missing from payload" "coordinates" = false :=
  ⟨rfl, rfl, rfl⟩

/-- C3: for every client state and every payload whose `coordinates`
entry is a list, the built request ignores the caller-supplied path and
uses base url, the path
`/{service}/{version}/{profile}/{semicolon-joined non-empty stripped coordinates}.json`,
and, as query arguments, exactly the payload entries other than
`coordinates`. -/
theorem build_url_path (c : OSRMClient) (urlpath : Option String)
    (params : List (String × PayVal)) (cs : List String)
    (h : assocGet params "coordinates" = some (PayVal.strList cs)) :
    c.build_url urlpath params
      = .ok ⟨c.urlbase,
          "/" ++ c.service.value ++ "/" ++ c.version ++ "/" ++ c.profile.value
            ++ "/" ++ pyJoin ";" ((cs.filter (fun s => !s.isEmpty)).map pyStrip)
            ++ ".json",
          params.filter (fun kv => kv.1 != "coordinates")⟩ := by
  have hne : params.isEmpty = false := by
    cases params with
    | nil => simp [assocGet] at h
    | cons a t => rfl
  unfold OSRMClient.build_url
  rw [hne, h]
  rfl

/-- C3 witness: the spec's concrete example, with a caller-supplied path
that is ignored and one extra payload entry that becomes a query
argument. -/
theorem build_url_path_witness :
    OSRMClient.build_url
        ⟨"http://osrm.example", Option.none, .ROUTE, .CAR, "v1"⟩
        (some "/caller/supplied")
        [("coordinates", PayVal.strList ["1.0,2.0", "3.0,4.0"]),
          ("steps", PayVal.str "true")]
      = .ok ⟨"http://osrm.example", "/route/v1/car/1.0,2.0;3.0,4.0.json",
          [("steps", PayVal.str "true")]⟩ :=
  build_url_path _ _ _ ["1.0,2.0", "3.0,4.0"] rfl

/-- C2 (code-bug evidence): an unusable response (`code` not `"Ok"`) takes
a `continue` branch and never reaches `time.sleep(10)` (flag `false`),
while a usable response falls through to the sleep (flag `true`) — so
the pause is not unconditional after every request. -/
theorem sleep_skipped_on_unusable_response :
    processResponse [("code", JVal.str "Error")]
      = .ok (DistOutcome.unknown, false) ∧
    processResponse [("code", JVal.str "Ok"),
        ("routes", JVal.arr [JVal.obj [("distance", JVal.num 1000)]])]
      = .ok (DistOutcome.dist (((1000 : ℤ) : ℚ) / 100), true) ∧
    ((1000 : ℤ) : ℚ) / 100 = 10 :=
  ⟨rfl, rfl, by norm_num⟩

/-- C9: `get_client` returns the cached client unchanged when one is set;
on a cache miss it constructs from configuration — `engine` (defaulting
to `"OSRM"`) selects the OSRM client exactly for `"OSRM"` and the generic
client otherwise, built from the configured `urlbase` and `apikey` — and
caches the result, so any successful call followed by another call on the
returned context yields the identical instance and context. -/
theorem get_client_contract (ctx : Ctx) :
    (∀ c, ctx.client = some c → get_client ctx = .ok (c, ctx)) ∧
    (ctx.client = Option.none →
      get_client ctx = (mkClientFromConfig ctx.config).map
        (fun c => (c, { ctx with client := some c }))) ∧
    (∀ ub, ctx.config.urlbase = some ub → ctx.config.engine.getD "OSRM" = "OSRM" →
      mkClientFromConfig ctx.config
        = (mkOSRMClient ub (ctx.config.apikey.map PyVal.str) PyArg.none
            (some "v1") (EnumInput.mem OSRMProfile.CAR)).map Client.osrm) ∧
    (∀ ub, ctx.config.urlbase = some ub → ctx.config.engine.getD "OSRM" ≠ "OSRM" →
      mkClientFromConfig ctx.config
        = (mkAPIClient ub (ctx.config.apikey.map PyVal.str)).map Client.generic) ∧
    (∀ c ctx2, get_client ctx = .ok (c, ctx2) → get_client ctx2 = .ok (c, ctx2)) := by
  refine ⟨?_, ?_, ?_, ?_, ?_⟩
  · intro c hc
    unfold get_client
    rw [hc]
  · intro hc
    unfold get_client
    rw [hc]
    cases hm : mkClientFromConfig ctx.config with
    | error e => simp [Except.map]
    | ok c => simp [Except.map]
  · intro ub hub heng
    unfold mkClientFromConfig
    rw [hub]
    simp [heng]
  · intro ub hub heng
    unfold mkClientFromConfig
    rw [hub]
    simp [heng]
  · intro c ctx2 h
    unfold get_client at h ⊢
    cases hc : ctx.client with
    | some c0 =>
      rw [hc] at h
      injection h with h2
      injection h2 with h3 h4
      rw [← h4, hc, h3]
    | none =>
      rw [hc] at h
      cases hm : mkClientFromConfig ctx.config with
      | error e =>
        rw [hm] at h
        exact absurd h (by simp)
      | ok c1 =>
        rw [hm] at h
        injection h with h2
        injection h2 with h3 h4
        rw [← h4, ← h3]

/-- C9 witness: with a concrete configuration, the first call constructs
and caches an OSRM client and a second call on the returned context
returns the identical instance and leaves the context unchanged. -/
theorem get_client_contract_witness :
    get_client
        ⟨⟨Option.none, some "http://r.example", some "KEY"⟩,
          some (Client.osrm
            ⟨"http://r.example", some (PyVal.str "KEY"), .ROUTE, .CAR, "v1"⟩)⟩
      = .ok (Client.osrm
            ⟨"http://r.example", some (PyVal.str "KEY"), .ROUTE, .CAR, "v1"⟩,
          ⟨⟨Option.none, some "http://r.example", some "KEY"⟩,
            some (Client.osrm
              ⟨"http://r.example", some (PyVal.str "KEY"), .ROUTE, .CAR, "v1"⟩)⟩) :=
  (get_client_contract
      ⟨⟨Option.none, some "http://r.example", some "KEY"⟩, Option.none⟩).2.2.2.2
    _ _ rfl

/-- Membership in the first-seen key list is membership among the rows'
origin keys. -/
theorem mem_firstSeenKeys (rows : List Row) (k : Origin) :
    k ∈ firstSeenKeys rows ↔ k ∈ rows.map Row.originKey := by
  induction rows with
  | nil => simp [firstSeenKeys]
  | cons r rest ih =>
    simp only [firstSeenKeys, List.mem_cons, List.mem_filter,
      decide_eq_true_eq, List.map_cons, ← ih]
    by_cases hk : k = r.originKey
    · simp [hk]
    · simp [hk]

/-- The first-seen key list has no duplicates. -/
theorem nodup_firstSeenKeys (rows : List Row) : (firstSeenKeys rows).Nodup := by
  induction rows with
  | nil => exact List.nodup_nil
  | cons r rest ih =>
    rw [firstSeenKeys, List.nodup_cons]
    refine ⟨?_, ih.filter _⟩
    intro hmem
    have h2 := (List.mem_filter.mp hmem).2
    simp at h2

/-- Appending one row extends the first-seen key list with its origin key
exactly when that key is new. -/
theorem firstSeenKeys_append (l : List Row) (r : Row) :
    firstSeenKeys (l ++ [r])
      = if r.originKey ∈ firstSeenKeys l then firstSeenKeys l
        else firstSeenKeys l ++ [r.originKey] := by
  induction l with
  | nil => simp [firstSeenKeys]
  | cons x l ih =>
    by_cases h1 : r.originKey ∈ firstSeenKeys l
    · have hmem : r.originKey ∈ firstSeenKeys (x :: l) := by
        simp only [firstSeenKeys, List.mem_cons, List.mem_filter,
          decide_eq_true_eq]
        by_cases h2 : r.originKey = x.originKey
        · exact Or.inl h2
        · exact Or.inr ⟨h1, h2⟩
      rw [if_pos hmem]
      show x.originKey
          :: (firstSeenKeys (l ++ [r])).filter (fun k => k ≠ x.originKey)
        = firstSeenKeys (x :: l)
      rw [ih, if_pos h1]
      rfl
    · by_cases h2 : r.originKey = x.originKey
      · have hmem : r.originKey ∈ firstSeenKeys (x :: l) := by
          simp only [firstSeenKeys, List.mem_cons]
          exact Or.inl h2
        rw [if_pos hmem]
        show x.originKey
            :: (firstSeenKeys (l ++ [r])).filter (fun k => k ≠ x.originKey)
          = firstSeenKeys (x :: l)
        rw [ih, if_neg h1, List.filter_append]
        simp [firstSeenKeys, h2]
      · have hmem : r.originKey ∉ firstSeenKeys (x :: l) := by
          simp only [firstSeenKeys, List.mem_cons, List.mem_filter,
            decide_eq_true_eq]
          rintro (hc | hc)
          · exact h2 hc
          · exact h1 hc.1
        rw [if_neg hmem]
        show x.originKey
            :: (firstSeenKeys (l ++ [r])).filter (fun k => k ≠ x.originKey)
          = firstSeenKeys (x :: l) ++ [r.originKey]
        rw [ih, if_neg h1, List.filter_append]
        simp [firstSeenKeys, h2]

/-- `addRow` on a keyed map with a fresh key appends a new singleton
group at the end. -/
theorem addRow_not_mem (ks : List Origin) (F : Origin → List Dest)
    (o : Origin) (d : Dest) (h : o ∉ ks) :
    addRow (ks.map (fun k => (k, F k))) o d
      = ks.map (fun k => (k, F k)) ++ [(o, [d])] := by
  induction ks with
  | nil => rfl
  | cons k ks ih =>
    have hk : ¬ k = o := fun he => h (by rw [← he]; exact List.mem_cons_self _ _)
    simp only [List.map_cons, addRow, if_neg hk, List.cons_append]
    rw [ih (fun hm => h (List.mem_cons_of_mem _ hm))]

/-- `addRow` on a duplicate-free keyed map with a present key appends the
destination to that key's group and leaves every other group unchanged. -/
theorem addRow_mem (ks : List Origin) (F : Origin → List Dest)
    (o : Origin) (d : Dest) (hnd : ks.Nodup) (h : o ∈ ks) :
    addRow (ks.map (fun k => (k, F k))) o d
      = ks.map (fun k => (k, F k ++ if k = o then [d] else [])) := by
  induction ks with
  | nil => cases h
  | cons k ks ih =>
    rw [List.nodup_cons] at hnd
    by_cases hk : k = o
    · simp only [List.map_cons, addRow, if_pos hk]
      congr 1
      symm
      apply List.map_congr_left
      intro a ha
      have hne : ¬ a = o := fun he => hnd.1 (by rw [hk, ← he]; exact ha)
      rw [if_neg hne, List.append_nil]
    · have ho : o ∈ ks := by
        rcases List.mem_cons.mp h with h2 | h2
        · exact absurd h2.symm hk
        · exact h2
      simp only [List.map_cons, addRow, if_neg hk]
      congr 1
      · rw [List.append_nil]
      · exact ih hnd.2 ho

/-- One grouping step agrees with the spec-side description of the
grouping. -/
theorem specGroup_append (l : List Row) (r : Row) :
    specGroup (l ++ [r]) = addRow (specGroup l) r.originKey r.destRec := by
  unfold specGroup
  rw [firstSeenKeys_append]
  by_cases hmem : r.originKey ∈ firstSeenKeys l
  · rw [if_pos hmem, addRow_mem _ _ _ _ (nodup_firstSeenKeys l) hmem]
    apply List.map_congr_left
    intro k hk
    simp only [List.filter_append, List.map_append]
    by_cases h2 : r.originKey = k
    · simp [h2]
    · simp [h2, Ne.symm h2]
  · rw [if_neg hmem, addRow_not_mem _ _ _ _ hmem, List.map_append]
    congr 1
    · apply List.map_congr_left
      intro k hk
      have hne : ¬ r.originKey = k := fun he => hmem (by rw [he]; exact hk)
      simp [List.filter_append, hne]
    · have hfil : l.filter (fun r2 => r2.originKey = r.originKey) = [] := by
        rw [List.filter_eq_nil_iff]
        intro a ha
        simp only [decide_eq_true_eq]
        intro hc
        exact hmem ((mem_firstSeenKeys l r.originKey).mpr
          (List.mem_map.mpr ⟨a, ha, hc⟩))
      simp [List.filter_append, hfil]

/-- The ordered-dict grouping loop computes exactly the spec-side
grouping. -/
theorem groupRows_eq_specGroup (rows : List Row) :
    groupRows rows = specGroup rows := by
  induction rows using List.reverseRecOn with
  | nil => rfl
  | append_singleton l r ih =>
    have hstep : groupRows (l ++ [r]) = addRow (groupRows l) r.originKey r.destRec := by
      unfold groupRows
      rw [List.foldl_append]
      rfl
    rw [hstep, ih, specGroup_append]

/-- A map composed into a flatMap. -/
theorem flatMap_map_comp {α β γ : Type} (l : List α) (f : α → β)
    (g : β → List γ) :
    (l.map f).flatMap g = l.flatMap (fun a => g (f a)) := by
  induction l with
  | nil => rfl
  | cons a l ih => simp only [List.map_cons, List.flatMap_cons, ih]

/-- `addRow` grows the total destination count by one. -/
theorem addRow_destCount (g : List (Origin × List Dest)) (o : Origin)
    (d : Dest) :
    ((addRow g o d).map (fun p => p.2.length)).sum
      = (g.map (fun p => p.2.length)).sum + 1 := by
  induction g with
  | nil => rfl
  | cons p g ih =>
    obtain ⟨k, ds⟩ := p
    by_cases hk : k = o
    · simp only [addRow, if_pos hk, List.map_cons, List.sum_cons,
        List.length_append, List.length_cons, List.length_nil]
      omega
    · simp only [addRow, if_neg hk, List.map_cons, List.sum_cons, ih]
      omega

/-- The grouping loop preserves the total destination count. -/
theorem foldl_destCount (rows : List Row) :
    ∀ g : List (Origin × List Dest),
      ((rows.foldl (fun g2 r => addRow g2 r.originKey r.destRec) g).map
        (fun p => p.2.length)).sum
      = (g.map (fun p => p.2.length)).sum + rows.length := by
  induction rows with
  | nil => intro g; simp
  | cons r rest ih =>
    intro g
    simp only [List.foldl_cons, ih, addRow_destCount, List.length_cons]
    omega

/-- C8: the grouping of `compute` maps each origin key, in first-seen
order, to that origin's destination records in input order; the emitted
output is, for each first-seen origin in order, the contiguous block of
its input rows in input order; the output has exactly as many rows as the
input; and the group keys are the distinct origins in first-seen order. -/
theorem compute_grouping_correct (rows : List Row) :
    groupRows rows = specGroup rows ∧
    outputRows rows
      = (firstSeenKeys rows).flatMap
          (fun k => (rows.filter (fun r2 => r2.originKey = k)).map
            (fun r2 => (k, r2.destRec))) ∧
    (outputRows rows).length = rows.length ∧
    (groupRows rows).map Prod.fst = firstSeenKeys rows := by
  refine ⟨groupRows_eq_specGroup rows, ?_, ?_, ?_⟩
  · unfold outputRows
    rw [groupRows_eq_specGroup]
    unfold specGroup
    rw [flatMap_map_comp]
    have hpt : ∀ k : Origin,
        (((rows.filter (fun r2 => r2.originKey = k)).map Row.destRec).map
          (fun d => (k, d)))
        = (rows.filter (fun r2 => r2.originKey = k)).map
            (fun r2 => (k, r2.destRec)) := by
      intro k
      rw [List.map_map]
      rfl
    simp only [hpt]
  · unfold outputRows
    rw [List.length_flatMap]
    have h1 : ((groupRows rows).map
          (List.length ∘ fun g => g.2.map (fun d => (g.1, d))))
        = (groupRows rows).map (fun p => p.2.length) := by
      apply List.map_congr_left
      intro a ha
      simp
    rw [h1]
    have h2 := foldl_destCount rows []
    simpa using h2
  · rw [groupRows_eq_specGroup]
    unfold specGroup
    rw [List.map_map]
    have hid : (Prod.fst ∘ fun k : Origin =>
        (k, (rows.filter (fun r2 => r2.originKey = k)).map Row.destRec)) = id := rfl
    rw [hid, List.map_id]

/-- Indexing a string yields a one-character string when it yields
anything. -/
theorem pyIndex0_str (s : String) (r : JVal)
    (h : pyIndex0 (JVal.str s) = .ok r) : ∃ t, r = JVal.str t := by
  simp only [pyIndex0] at h
  cases hs : s.toList with
  | nil => rw [hs] at h; cases h
  | cons c tail =>
    rw [hs] at h
    injection h with h2
    exact ⟨String.mk [c], h2.symm⟩

/-- When the guard `data.code and data.code == "Ok" and data.routes` is
falsy, the iteration sets the sentinel and continues. -/
theorem guardFalseLemma (data : List (String × JVal))
    (h : (optTruthy (assocGet data "code") && isOkStr (assocGet data "code")
      && optTruthy (assocGet data "routes")) = false) :
    interpret data = .ok .unknown := by
  unfold interpret processResponse
  simp only [h]
  rfl

/-- C1: the computed distance is `rawDistance / 100` exactly when the
response carries `code = "Ok"`, a non-empty `routes` list whose first
entry is truthy, and that entry's `distance` divides by 100 (conjunct 2
ties the division to a numeric raw distance); in each of the enumerated
degraded cases — `code` missing or not `"Ok"`, `routes` missing or an
empty list, first route entry falsy, or no usable `distance` — the
result is the sentinel, returned normally so the loop continues. -/
theorem interpret_response (data : List (String × JVal)) (q : ℚ) :
    (interpret data = .ok (.dist q) ↔
      ∃ r rs, assocGet data "code" = some (JVal.str "Ok") ∧
        assocGet data "routes" = some (JVal.arr (r :: rs)) ∧
        truthy r = true ∧ tryDistance r = some q) ∧
    (∀ fs n, assocGet fs "distance" = some (JVal.num n) →
      tryDistance (JVal.obj fs) = some ((n : ℚ) / 100)) ∧
    (assocGet data "code" = Option.none → interpret data = .ok .unknown) ∧
    (∀ v, assocGet data "code" = some v → v ≠ JVal.str "Ok" →
      interpret data = .ok .unknown) ∧
    (assocGet data "routes" = Option.none → interpret data = .ok .unknown) ∧
    (assocGet data "routes" = some (JVal.arr []) → interpret data = .ok .unknown) ∧
    (∀ r rs, assocGet data "routes" = some (JVal.arr (r :: rs)) →
      truthy r = false → interpret data = .ok .unknown) ∧
    (∀ r rs, assocGet data "routes" = some (JVal.arr (r :: rs)) →
      tryDistance r = Option.none → interpret data = .ok .unknown) := by
  refine ⟨?_, ?_, ?_, ?_, ?_, ?_, ?_, ?_⟩
  · constructor
    · intro h
      cases hg : (optTruthy (assocGet data "code") && isOkStr (assocGet data "code")
          && optTruthy (assocGet data "routes")) with
      | false =>
        rw [guardFalseLemma data hg] at h
        simp at h
      | true =>
        have hg2 := hg
        simp only [Bool.and_eq_true] at hg2
        obtain ⟨⟨ha, hb⟩, hc⟩ := hg2
        have hcode : assocGet data "code" = some (JVal.str "Ok") := by
          cases hc2 : assocGet data "code" with
          | none => rw [hc2] at hb; simp [isOkStr] at hb
          | some v =>
            cases v with
            | str s =>
              rw [hc2] at hb
              simp only [isOkStr, beq_iff_eq] at hb
              rw [hb]
            | null => rw [hc2] at hb; simp [isOkStr] at hb
            | bool b => rw [hc2] at hb; simp [isOkStr] at hb
            | num n => rw [hc2] at hb; simp [isOkStr] at hb
            | arr xs => rw [hc2] at hb; simp [isOkStr] at hb
            | obj fs => rw [hc2] at hb; simp [isOkStr] at hb
        cases hr : assocGet data "routes" with
        | none => rw [hr] at hc; simp [optTruthy] at hc
        | some v =>
          rw [hr] at hc
          unfold interpret processResponse at h
          simp only [hg, eq_self_iff_true, if_true] at h
          rw [hr] at h
          simp only [Option.getD_some] at h
          cases v with
          | null => simp [optTruthy, truthy] at hc
          | bool b => simp [pyIndex0, Except.map] at h
          | num n => simp [pyIndex0, Except.map] at h
          | obj fs => simp [pyIndex0, Except.map] at h
          | str s =>
            cases hpi : pyIndex0 (JVal.str s) with
            | error e => rw [hpi] at h; simp [Except.map] at h
            | ok route =>
              obtain ⟨t, ht2⟩ := pyIndex0_str s route hpi
              rw [hpi] at h
              subst ht2
              cases ht : truthy (JVal.str t) <;>
                simp [ht, tryDistance, Except.map] at h
          | arr xs =>
            cases xs with
            | nil => simp [optTruthy, truthy] at hc
            | cons r rs =>
              simp only [pyIndex0] at h
              cases ht : truthy r with
              | false => rw [ht] at h; simp [Except.map] at h
              | true =>
                rw [ht] at h
                cases htd : tryDistance r with
                | none => rw [htd] at h; simp [Except.map] at h
                | some q2 =>
                  rw [htd] at h
                  simp [Except.map] at h
                  exact ⟨r, rs, hcode, rfl, ht, by rw [htd, h]⟩
    · rintro ⟨r, rs, hcode, hroutes, ht, htd⟩
      have hguard : (optTruthy (assocGet data "code")
          && isOkStr (assocGet data "code")
          && optTruthy (assocGet data "routes")) = true := by
        rw [hcode, hroutes]
        rfl
      unfold interpret processResponse
      simp only [hguard, eq_self_iff_true, if_true]
      rw [hroutes]
      simp only [Option.getD_some, pyIndex0, ht, htd, eq_self_iff_true, if_true]
      rfl
  · intro fs n h
    unfold tryDistance
    simp only [h]
  · intro h
    exact guardFalseLemma data (by rw [h]; rfl)
  · intro v hv hne
    have hok : isOkStr (some v) = false := by
      cases v with
      | str s =>
        have hs : s ≠ "Ok" := fun he => hne (by rw [he])
        simp [isOkStr, hs]
      | null => rfl
      | bool b => rfl
      | num n => rfl
      | arr xs => rfl
      | obj fs => rfl
    exact guardFalseLemma data (by rw [hv]; simp [hok])
  · intro h
    exact guardFalseLemma data (by rw [h]; simp [optTruthy])
  · intro h
    exact guardFalseLemma data (by rw [h]; simp [optTruthy, truthy])
  · intro r rs h ht
    cases hg : (optTruthy (assocGet data "code") && isOkStr (assocGet data "code")
        && optTruthy (assocGet data "routes")) with
    | false => exact guardFalseLemma data hg
    | true =>
      unfold interpret processResponse
      simp only [hg, eq_self_iff_true, if_true]
      rw [h]
      simp only [Option.getD_some, pyIndex0, ht]
      rfl
  · intro r rs h htd
    cases hg : (optTruthy (assocGet data "code") && isOkStr (assocGet data "code")
        && optTruthy (assocGet data "routes")) with
    | false => exact guardFalseLemma data hg
    | true =>
      unfold interpret processResponse
      simp only [hg, eq_self_iff_true, if_true]
      rw [h]
      simp only [Option.getD_some, pyIndex0, htd]
      cases ht : truthy r <;> simp [ht, Except.map]

/-- C1 witness: the spec's mock response
`{"code":"Ok","routes":[{"distance":1000}]}` computes the distance
`1000 / 100`. -/
theorem interpret_response_witness :
    interpret [("code", JVal.str "Ok"),
        ("routes", JVal.arr [JVal.obj [("distance", JVal.num 1000)]])]
      = .ok (.dist (((1000 : ℤ) : ℚ) / 100)) :=
  (interpret_response _ (((1000 : ℤ) : ℚ) / 100)).1.mpr
    ⟨JVal.obj [("distance", JVal.num 1000)], [], rfl, rfl, rfl, rfl⟩

end Routr
